import Mathlib

/-!
Verification of the `Bid` entity of the bidding_heap repository
(`src/models/v1/bid.rs`).

The Rust struct `Bid` holds two opaque string identifiers, an `i32` bid
identifier, an `i32` amount, a UTC timestamp `made_at`, and an optional
UTC timestamp `removed_at`.  The comparison predicates only compare
amounts and timestamps with `<` and `==` (no arithmetic), so `i32` values
and `chrono::DateTime<Utc>` instants are both embedded as `Int`, whose
order embeds theirs faithfully.
-/

structure Bid where
  auction_id : String
  bidder_id : String
  id : Int
  amount : Int
  made_at : Int
  removed_at : Option Int
deriving DecidableEq, Repr

namespace Bid

/-- `Bid::is_active`: true iff `removed_at` is `None`. -/
def is_active (self : Bid) : Bool :=
  self.removed_at.isNone

/-- `Bid::remove`: sets `removed_at` to the current UTC time.  The wall
clock read `Utc::now()` is passed in explicitly as `now`. -/
def remove (self : Bid) (now : Int) : Bid :=
  { self with removed_at := some now }

/-- `Bid::is_lower_bid_than`. -/
def is_lower_bid_than (self other : Bid) : Bool :=
  let both_bids_active := self.is_active && other.is_active
  let neither_bid_active := !(self.is_active || other.is_active)
  let is_lower_amount := decide (self.amount < other.amount)
  let is_equal_amount := self.amount == other.amount
  let is_later_bid := decide (other.made_at < self.made_at)
  if both_bids_active || neither_bid_active then
    is_lower_amount || (is_equal_amount && is_later_bid)
  else
    !self.is_active

/-- `Bid::is_equivalent_bid_to`. -/
def is_equivalent_bid_to (self other : Bid) : Bool :=
  let both_bids_active := self.is_active && other.is_active
  let neither_bid_active := !(self.is_active || other.is_active)
  let is_equal_amount := self.amount == other.amount
  let is_simultaneous_bid := other.made_at == self.made_at
  if both_bids_active || neither_bid_active then
    is_equal_amount && is_simultaneous_bid
  else
    false

/-- `Bid::is_higher_bid_than`: derived from the other two predicates. -/
def is_higher_bid_than (self other : Bid) : Bool :=
  !self.is_lower_bid_than other && !self.is_equivalent_bid_to other

end Bid

/-- Characterisation of `is_lower_bid_than` as a proposition. -/
lemma is_lower_bid_than_iff (a b : Bid) :
    a.is_lower_bid_than b = true ↔
      (a.is_active = b.is_active ∧
        (a.amount < b.amount ∨ (a.amount = b.amount ∧ b.made_at < a.made_at)))
      ∨ (a.is_active ≠ b.is_active ∧ a.is_active = false) := by
  cases ha : a.removed_at <;> cases hb : b.removed_at <;>
    simp [Bid.is_lower_bid_than, Bid.is_active, ha, hb]

/-- Characterisation of `is_equivalent_bid_to` as a proposition. -/
lemma is_equivalent_bid_to_iff (a b : Bid) :
    a.is_equivalent_bid_to b = true ↔
      a.is_active = b.is_active ∧ a.amount = b.amount ∧ a.made_at = b.made_at := by
  cases ha : a.removed_at <;> cases hb : b.removed_at <;>
    simp [Bid.is_equivalent_bid_to, Bid.is_active, ha, hb] <;> omega

/-- `is_higher_bid_than` is the conjunction of the negations. -/
lemma is_higher_bid_than_eq (a b : Bid) :
    a.is_higher_bid_than b = true ↔
      a.is_lower_bid_than b = false ∧ a.is_equivalent_bid_to b = false := by
  simp [Bid.is_higher_bid_than]

/-- Modelled from the spec: the structured external representation of a
`Bid`.  The serialize/deserialize implementations are compiler-derived in
the repository and absent from `src/`; the spec only requires a lossless
field-for-field representation preserving `auction_id`, `bidder_id`, `id`,
`amount`, `made_at` and the optional `removed_at`. -/
structure BidWire where
  auction_id : String
  bidder_id : String
  id : Int
  amount : Int
  made_at : Int
  removed_at : Option Int
deriving DecidableEq, Repr

/-- Modelled from the spec: encoding of a `Bid` to the external
representation, field for field. -/
def encode (b : Bid) : BidWire :=
  { auction_id := b.auction_id
    bidder_id := b.bidder_id
    id := b.id
    amount := b.amount
    made_at := b.made_at
    removed_at := b.removed_at }

/-- Modelled from the spec: decoding from the external representation.
Decoding is fallible at the boundary (malformed input is reported to the
caller), so it returns an `Option`; a well-formed representation decodes
to the corresponding `Bid`. -/
def decode (w : BidWire) : Option Bid :=
  some
    { auction_id := w.auction_id
      bidder_id := w.bidder_id
      id := w.id
      amount := w.amount
      made_at := w.made_at
      removed_at := w.removed_at }

/-- An active bid used as a concrete witness input. -/
def wActiveLow : Bid :=
  { auction_id := "auction_id", bidder_id := "0", id := 0,
    amount := 0, made_at := 1000, removed_at := none }

/-- An active bid with a higher amount, used as a concrete witness input. -/
def wActiveHigh : Bid :=
  { auction_id := "auction_id", bidder_id := "2", id := 2,
    amount := 1, made_at := 1000, removed_at := none }

/-- An active bid, equal amount, placed later, used as a witness input. -/
def wActiveLater : Bid :=
  { auction_id := "auction_id", bidder_id := "1", id := 1,
    amount := 0, made_at := 2000, removed_at := none }

/-- An inactive (removed) bid used as a concrete witness input. -/
def wInactive : Bid :=
  { auction_id := "auction_id", bidder_id := "4", id := 4,
    amount := 5, made_at := 1500, removed_at := some 3000 }

/-- A copy of `wActiveLow` with different identity fields. -/
def wActiveLowAlias : Bid :=
  { auction_id := "other_auction", bidder_id := "99", id := 77,
    amount := 0, made_at := 1000, removed_at := none }

/-- A copy of `wInactive` with different identity fields and a different
removal time (only the presence of `removed_at` matters for ranking). -/
def wInactiveAlias : Bid :=
  { auction_id := "other_auction", bidder_id := "98", id := 78,
    amount := 5, made_at := 1500, removed_at := some 4000 }

/-- Mutual incomparability under `is_lower_bid_than` holds exactly when the
two bids share active status, amount and placement time. -/
lemma mutually_not_lower_iff (a b : Bid) :
    (a.is_lower_bid_than b = false ∧ b.is_lower_bid_than a = false) ↔
      a.is_active = b.is_active ∧ a.amount = b.amount ∧ a.made_at = b.made_at := by
  cases ha : a.removed_at <;> cases hb : b.removed_at <;>
    simp [Bid.is_lower_bid_than, Bid.is_active, ha, hb] <;> omega

/-- C1: for every pair of bids exactly one of `is_lower_bid_than`,
`is_equivalent_bid_to`, `is_higher_bid_than` holds. -/
theorem spec_c1_partition (a b : Bid) :
    (a.is_lower_bid_than b = true ∧ a.is_equivalent_bid_to b = false ∧
      a.is_higher_bid_than b = false) ∨
    (a.is_lower_bid_than b = false ∧ a.is_equivalent_bid_to b = true ∧
      a.is_higher_bid_than b = false) ∨
    (a.is_lower_bid_than b = false ∧ a.is_equivalent_bid_to b = false ∧
      a.is_higher_bid_than b = true) := by
  have hmutex : ¬(a.is_lower_bid_than b = true ∧ a.is_equivalent_bid_to b = true) := by
    rw [is_lower_bid_than_iff, is_equivalent_bid_to_iff]
    rintro ⟨⟨_, hnum⟩ | ⟨hne, _⟩, hsame, hamt, hmt⟩
    · omega
    · exact hne hsame
  cases hl : a.is_lower_bid_than b <;> cases he : a.is_equivalent_bid_to b <;>
    simp [Bid.is_higher_bid_than, hl, he]
  exact hmutex ⟨hl, he⟩

/-- C2: `is_lower_bid_than` compares amount then reversed placement time when
both bids are active or neither is; with exactly one active bid it is true
iff `self` is the inactive one. -/
theorem spec_c2_is_lower_cases (self other : Bid) :
    (((self.is_active = true ∧ other.is_active = true) ∨
        (self.is_active = false ∧ other.is_active = false)) →
      (self.is_lower_bid_than other = true ↔
        self.amount < other.amount ∨
          (self.amount = other.amount ∧ other.made_at < self.made_at))) ∧
    (¬((self.is_active = true ∧ other.is_active = true) ∨
        (self.is_active = false ∧ other.is_active = false)) →
      (self.is_lower_bid_than other = true ↔ self.is_active = false)) := by
  cases hs : self.removed_at <;> cases ho : other.removed_at <;>
    simp [Bid.is_lower_bid_than, Bid.is_active, hs, ho]

/-- C2 witness: concrete instances of both branches. -/
theorem spec_c2_witness :
    wActiveLow.is_lower_bid_than wActiveHigh = true ∧
    wInactive.is_lower_bid_than wActiveLow = true :=
  ⟨((spec_c2_is_lower_cases wActiveLow wActiveHigh).1 (Or.inl ⟨rfl, rfl⟩)).mpr
      (Or.inl (by decide)),
   ((spec_c2_is_lower_cases wInactive wActiveLow).2 (by decide)).mpr rfl⟩

/-- C3: `is_equivalent_bid_to` holds iff both bids are active or neither is,
with exactly equal amount and placement time; mixed active status makes it
false even with identical amount and time. -/
theorem spec_c3_is_equivalent_cases (self other : Bid) :
    (self.is_equivalent_bid_to other = true ↔
      ((self.is_active = true ∧ other.is_active = true) ∨
        (self.is_active = false ∧ other.is_active = false)) ∧
      self.amount = other.amount ∧ self.made_at = other.made_at) ∧
    (self.is_active ≠ other.is_active → self.is_equivalent_bid_to other = false) := by
  cases hs : self.removed_at <;> cases ho : other.removed_at <;>
    simp [Bid.is_equivalent_bid_to, Bid.is_active, hs, ho] <;> omega

/-- C3 witness: an inactive and an active bid are not equivalent. -/
theorem spec_c3_witness : wInactive.is_equivalent_bid_to wActiveLow = false :=
  (spec_c3_is_equivalent_cases wInactive wActiveLow).2 (by decide)

/-- C4: an active bid is always higher than an inactive one and never
equivalent to it, whatever the amounts and timestamps. -/
theorem spec_c4_active_dominance (a b : Bid) (ha : a.removed_at = none)
    (hb : b.removed_at.isSome = true) :
    a.is_higher_bid_than b = true ∧ a.is_equivalent_bid_to b = false := by
  rcases Option.isSome_iff_exists.mp hb with ⟨t, hbt⟩
  simp [Bid.is_higher_bid_than, Bid.is_lower_bid_than, Bid.is_equivalent_bid_to,
    Bid.is_active, ha, hbt]

/-- C4 witness: a concrete active bid dominates a concrete inactive one. -/
theorem spec_c4_witness :
    wActiveLow.is_higher_bid_than wInactive = true ∧
    wActiveLow.is_equivalent_bid_to wInactive = false :=
  spec_c4_active_dominance wActiveLow wInactive rfl rfl

/-- C5: among bids of the same active status with equal amount, the
earlier-placed bid is higher. -/
theorem spec_c5_tie_break (a b : Bid) (hact : a.is_active = b.is_active)
    (hamt : a.amount = b.amount) (ht : a.made_at < b.made_at) :
    a.is_higher_bid_than b = true := by
  rw [is_higher_bid_than_eq, ← Bool.not_eq_true, ← Bool.not_eq_true,
    is_lower_bid_than_iff, is_equivalent_bid_to_iff]
  constructor
  · rintro (⟨_, hnum⟩ | ⟨hne, _⟩)
    · omega
    · exact hne hact
  · rintro ⟨_, _, hmt⟩
    omega

/-- C5 witness: among two concrete equal-amount active bids the earlier
one is higher. -/
theorem spec_c5_witness : wActiveLow.is_higher_bid_than wActiveLater = true :=
  spec_c5_tie_break wActiveLow wActiveLater rfl rfl (by decide)

/-- C6: `is_lower_bid_than` is a strict weak ordering: irreflexive,
transitive, and with transitive mutual non-lowerness. -/
theorem spec_c6_strict_weak_order :
    (∀ a : Bid, a.is_lower_bid_than a = false) ∧
    (∀ a b c : Bid, a.is_lower_bid_than b = true → b.is_lower_bid_than c = true →
      a.is_lower_bid_than c = true) ∧
    (∀ a b c : Bid,
      a.is_lower_bid_than b = false ∧ b.is_lower_bid_than a = false →
      b.is_lower_bid_than c = false ∧ c.is_lower_bid_than b = false →
      a.is_lower_bid_than c = false ∧ c.is_lower_bid_than a = false) := by
  refine ⟨?_, ?_, ?_⟩
  · intro a
    cases h : a.removed_at <;> simp [Bid.is_lower_bid_than, Bid.is_active, h]
  · intro a b c hab hbc
    rw [is_lower_bid_than_iff] at hab hbc ⊢
    rcases hab with ⟨e1, n1⟩ | ⟨ne1, ia⟩ <;> rcases hbc with ⟨e2, n2⟩ | ⟨ne2, ib⟩
    · exact Or.inl ⟨e1.trans e2, by omega⟩
    · exact Or.inr ⟨by rw [e1]; exact ne2, e1.trans ib⟩
    · exact Or.inr ⟨fun h => ne1 (h.trans e2.symm), ia⟩
    · exact absurd (ia.trans ib.symm) ne1
  · intro a b c h1 h2
    rw [mutually_not_lower_iff] at h1 h2 ⊢
    exact ⟨h1.1.trans h2.1, h1.2.1.trans h2.2.1, h1.2.2.trans h2.2.2⟩

/-- C6 witness: transitivity applied at three concrete bids. -/
theorem spec_c6_witness : wActiveLater.is_lower_bid_than wActiveHigh = true :=
  spec_c6_strict_weak_order.2.1 wActiveLater wActiveLow wActiveHigh
    (by decide) (by decide)

/-- C7: the three predicates depend only on amount, placement time and the
presence of `removed_at`, never on the identity fields. -/
theorem spec_c7_identity_irrelevant (a a' b b' : Bid)
    (haA : a.amount = a'.amount) (haT : a.made_at = a'.made_at)
    (haR : a.removed_at.isNone = a'.removed_at.isNone)
    (hbA : b.amount = b'.amount) (hbT : b.made_at = b'.made_at)
    (hbR : b.removed_at.isNone = b'.removed_at.isNone) :
    a.is_lower_bid_than b = a'.is_lower_bid_than b' ∧
    a.is_equivalent_bid_to b = a'.is_equivalent_bid_to b' ∧
    a.is_higher_bid_than b = a'.is_higher_bid_than b' := by
  have hl : a.is_lower_bid_than b = a'.is_lower_bid_than b' := by
    simp only [Bid.is_lower_bid_than, Bid.is_active, haA, haT, haR, hbA, hbT, hbR]
  have he : a.is_equivalent_bid_to b = a'.is_equivalent_bid_to b' := by
    simp only [Bid.is_equivalent_bid_to, Bid.is_active, haA, haT, haR, hbA, hbT, hbR]
  exact ⟨hl, he, by simp [Bid.is_higher_bid_than, hl, he]⟩

/-- C7 witness: concrete bids differing only in identity fields (and in the
value, not the presence, of `removed_at`) rank identically. -/
theorem spec_c7_witness :
    wActiveLow.is_lower_bid_than wInactive = wActiveLowAlias.is_lower_bid_than wInactiveAlias ∧
    wActiveLow.is_equivalent_bid_to wInactive = wActiveLowAlias.is_equivalent_bid_to wInactiveAlias ∧
    wActiveLow.is_higher_bid_than wInactive = wActiveLowAlias.is_higher_bid_than wInactiveAlias :=
  spec_c7_identity_irrelevant wActiveLow wActiveLowAlias wInactive wInactiveAlias
    rfl rfl rfl rfl rfl rfl

/-- C8: `remove` stamps `removed_at` with the current time, making the bid
inactive, and is unguarded: on an already-removed bid it overwrites the
stored removal time. -/
theorem spec_c8_remove (b : Bid) (now : Int) :
    (b.remove now).removed_at = some now ∧
    (b.remove now).is_active = false ∧
    (∀ t0 : Int, b.removed_at = some t0 → (b.remove now).removed_at = some now) :=
  ⟨rfl, rfl, fun _ _ => rfl⟩

/-- C8 witness: removing an already-removed concrete bid overwrites its
removal time. -/
theorem spec_c8_witness : (wInactive.remove 7).removed_at = some 7 :=
  (spec_c8_remove wInactive 7).2.2 3000 rfl

/-- C9: decoding the encoded external representation of any bid returns
exactly that bid, field for field, `removed_at` optionality included. -/
theorem spec_c9_round_trip (b : Bid) : decode (encode b) = some b :=
  rfl

/-- C10: `remove` changes no field other than `removed_at`. -/
theorem spec_c10_remove_frame (b : Bid) (now : Int) :
    (b.remove now).auction_id = b.auction_id ∧
    (b.remove now).bidder_id = b.bidder_id ∧
    (b.remove now).id = b.id ∧
    (b.remove now).amount = b.amount ∧
    (b.remove now).made_at = b.made_at ∧
    (b.remove now).removed_at = some now :=
  ⟨rfl, rfl, rfl, rfl, rfl, rfl⟩
